import Mathlib

/-!
Verification of the XF-to-MusicXML converter (`src/main.py`) against its
natural-language specification.

Shallow embedding conventions:
* mido message data bytes are `List Nat` (all values are 7-bit MIDI data bytes);
* the Python dict `xf_chord_map` is an association list in source order, with
  exact-key lookup (`lookupKey`) modelling `dict.get`;
* the chord regular expression of `main.py` line 108 is an executable
  backtracking matcher over `List Char`, with greedy quantifiers tried
  longest-first and alternation tried in pattern order, exactly as Python's
  `re.search` does for this pattern (ASCII inputs);
* the external music21 chord-symbol constructor `harmony.ChordSymbol` is an
  abstract parameter `v : String → Bool` (`true` = construction succeeds,
  `false` = the constructor raises); it appears both at the text-validation
  site (line 114) and at the construction site (line 124);
* delta times are `ℤ` (mido exposes them as plain integers), absolute ticks
  accumulate in `ℤ`, quarter-note offsets live in `ℚ`.
-/

namespace XFConv

/-- Vendor/sub-id header, `main.py` line 23: `XF_META_HEADER = (0x43, 0x7B)`. -/
def XF_META_HEADER : List Nat := [0x43, 0x7B]

/-- Chord event type byte, `main.py` line 24: `XF_CHORD_ID = 0x01`. -/
def XF_CHORD_ID : Nat := 0x01

/-- The static chord lookup table, `main.py` lines 30-48 (`xf_chord_map`),
entry for entry in source order.  Python tuple keys become byte lists; the
decimal literals `(0x52, 0, 35)` and `(0x52, 19, 35)` are kept as the same
numeric values. -/
def xf_chord_map : List (List Nat × String) :=
  [ ([0x31, 0x22], "C#m7"), ([0x26, 0x02], "Fm7"), ([0x27, 0x13], "F#add9"),
    ([0x35, 0x0A], "G#7#9"), ([0x31, 0x08], "C#sus4"), ([0x35, 0x13], "G#add9"),
    ([0x23, 0x13], "D#add9"), ([0x23, 0x00], "D#"), ([0x27, 0x00], "F#"),
    ([0x23, 0x13, 0x27], "D#add9/F#"), ([0x23, 0x00, 0x35], "D#/G#"),
    ([0x27, 0x0A], "F#7#9"), ([0x26, 0x00], "Fm"), ([0x35, 0x13, 0x37], "G#add9/A#"),
    ([0x31, 0x0A], "C#7#9"), ([0x27, 0x0A, 0x22], "F#7#9/C#"), ([0x35, 0x00], "G#"),
    ([0x35, 0x00, 0x37], "G#/A#"), ([0x27, 0x08], "F#sus4"),
    ([0x35, 0x02], "G#m7"), ([0x36, 0x13], "Aadd9"), ([0x44, 0x0A], "E7#9"),
    ([0x37, 0x08], "A#sus4"), ([0x32, 0x13, 0x31], "Dm7/C#"), ([0x32, 0x00], "D"),
    ([0x45, 0x00], "F"), ([0x36, 0x00], "A"), ([0x27, 0x02], "F#m7"),
    ([0x34, 0x00, 0x23], "Fm/D#"), ([0x34, 0x00], "Fm"), ([0x31, 0x00], "C#"),
    ([0x36, 0x13, 0x41], "Aadd9/C#"), ([0x34, 0x13, 0x23], "Fmadd9/D#"),
    ([0x23, 0x13, 0x22], "D#add9/C#"), ([0x23, 0x00, 0x27], "D#/F#"),
    ([0x44, 0x13], "Eadd9"), ([0x32, 0x08], "Dsus4"), ([0x31, 0x13], "C#add9"),
    ([0x36, 0x0A], "A7#9"), ([0x32, 0x0A], "D7#9"),
    ([82, 0, 35], "Fm/D#"), ([82, 19, 35], "Fmadd9/D#") ]

/-- Exact-key association lookup, modelling Python `dict.get` on `xf_chord_map`
(tuple keys compare by exact equality, so arity is part of the key). -/
def lookupKey (k : List Nat) : List (List Nat × String) → Option String
  | [] => none
  | p :: rest => if k = p.1 then some p.2 else lookupKey k rest

/-- The Yamaha XF SysEx chord decoder, `main.py` lines 68-86: a
`sequencer_specific` message is decoded only when `len(msg.data) > 2` and
`msg.data[:2] == XF_META_HEADER`; for event id `XF_CHORD_ID` the payload
after the header and id is stripped of `0x7F` separators and looked up in
`xf_chord_map`; an empty key (`continue` at line 83) and a missing key
(`dict.get` returning `None`) both yield no chord. -/
def decodeXFSysEx (data : List Nat) : Option String :=
  if 2 < data.length ∧ data.take 2 = XF_META_HEADER then
    if data.get? 2 = some XF_CHORD_ID then
      let chord_bytes := (data.drop 3).filter (fun b => b != 0x7F)
      if chord_bytes = [] then none
      else lookupKey chord_bytes xf_chord_map
    else none
  else none

/-- The table's keys are pairwise distinct, so association-list lookup agrees
with Python dict lookup. -/
lemma xf_chord_map_keys_nodup : (xf_chord_map.map Prod.fst).Nodup := by decide

/-- Every key in the table is non-empty (all keys have 2 or 3 bytes). -/
lemma xf_chord_map_keys_ne_nil : ∀ p ∈ xf_chord_map, p.1 ≠ [] := by decide

/-- With pairwise-distinct keys, membership determines the lookup result. -/
lemma lookupKey_of_mem {l : List (List Nat × String)}
    (hnd : (l.map Prod.fst).Nodup) {k : List Nat} {v : String}
    (hmem : (k, v) ∈ l) : lookupKey k l = some v := by
  induction l with
  | nil => cases hmem
  | cons p rest ih =>
    rw [List.map_cons, List.nodup_cons] at hnd
    rcases List.mem_cons.mp hmem with h | h
    · subst h
      simp [lookupKey]
    · have hk : k ≠ p.1 := by
        intro he
        exact hnd.1 (he ▸ List.mem_map.mpr ⟨(k, v), h, rfl⟩)
      simp only [lookupKey, if_neg hk]
      exact ih hnd.2 h

/-- Claim C1: for every key `k` in the static chord table, decoding a
sequencer-specific event whose data is the vendor header `(0x43, 0x7B)`,
the chord event type `0x01`, and a payload that equals `k` after removal of
every `0x7F` separator byte, yields exactly the table's chord name for `k`;
lookup is arity-sensitive: the 2-byte key `(0x23, 0x13)` and the 3-byte key
`(0x23, 0x13, 0x27)` share their leading two bytes yet are distinct entries
mapping to the different names `D#add9` and `D#add9/F#`. -/
theorem sysex_table_decode_exact :
    (∀ (payload k : List Nat) (name : String), (k, name) ∈ xf_chord_map →
      payload.filter (fun b => b != 0x7F) = k →
      decodeXFSysEx (0x43 :: 0x7B :: 0x01 :: payload) = some name) ∧
    decodeXFSysEx [0x43, 0x7B, 0x01, 0x23, 0x13] = some "D#add9" ∧
    decodeXFSysEx [0x43, 0x7B, 0x01, 0x23, 0x13, 0x27] = some "D#add9/F#" ∧
    ("D#add9" : String) ≠ "D#add9/F#" := by
  refine ⟨?_, by decide, by decide, by decide⟩
  intro payload k name hmem hfilter
  have hne : k ≠ [] := xf_chord_map_keys_ne_nil (k, name) hmem
  have hlen : 2 < (0x43 :: 0x7B :: 0x01 :: payload).length := by
    simp [List.length_cons]
  have hdrop : (0x43 :: 0x7B :: 0x01 :: payload).drop 3 = payload := rfl
  have hid : (0x43 :: 0x7B :: 0x01 :: payload).get? 2 = some XF_CHORD_ID := rfl
  rw [decodeXFSysEx]
  rw [if_pos ⟨hlen, rfl⟩, if_pos hid]
  simp only [hdrop, hfilter]
  rw [if_neg hne]
  exact lookupKey_of_mem xf_chord_map_keys_nodup hmem

/-- Witness for C1 at the concrete key `(0x32, 0x00) ↦ "D"`, with a payload
carrying a trailing `0x7F` separator. -/
theorem sysex_table_decode_exact_witness :
    decodeXFSysEx (0x43 :: 0x7B :: 0x01 :: [0x32, 0x00, 0x7F]) = some "D" :=
  sysex_table_decode_exact.1 [0x32, 0x00, 0x7F] [0x32, 0x00] "D"
    (by decide) (by decide)

/-- Claim C2: a chord event whose payload is empty after separator removal, or
whose stripped payload is absent from the lookup table (whatever its length),
decodes to no chord; the decoder is a total function, so no input raises. -/
theorem sysex_unknown_or_empty_decodes_none :
    ∀ payload : List Nat,
      (payload.filter (fun b => b != 0x7F) = [] ∨
       lookupKey (payload.filter (fun b => b != 0x7F)) xf_chord_map = none) →
      decodeXFSysEx (0x43 :: 0x7B :: 0x01 :: payload) = none := by
  intro payload h
  have hlen : 2 < (0x43 :: 0x7B :: 0x01 :: payload).length := by
    simp [List.length_cons]
  have hdrop : (0x43 :: 0x7B :: 0x01 :: payload).drop 3 = payload := rfl
  have hid : (0x43 :: 0x7B :: 0x01 :: payload).get? 2 = some XF_CHORD_ID := rfl
  rw [decodeXFSysEx]
  rw [if_pos ⟨hlen, rfl⟩, if_pos hid]
  simp only [hdrop]
  rcases h with h | h
  · rw [if_pos h]
  · by_cases he : payload.filter (fun b => b != 0x7F) = []
    · rw [if_pos he]
    · rw [if_neg he]
      exact h

/-- Witness for C2: an all-separator payload decodes to no chord. -/
theorem sysex_unknown_or_empty_decodes_none_witness :
    decodeXFSysEx (0x43 :: 0x7B :: 0x01 :: [0x7F, 0x7F]) = none :=
  sysex_unknown_or_empty_decodes_none [0x7F, 0x7F] (Or.inl (by decide))

/-!
## The text chord recognizer (`main.py` lines 92-119)

The pattern at line 108 is

  `[^A-G]*([A-G][b#]?(?:maj|min|m|M|dim|aug|sus|add|[-_])?[0-9]*(?:\(.*\))?(?:/[A-G][b#]?)?)\b`

searched with `re.search` (leftmost match, greedy quantifiers, alternation in
pattern order, backtracking).  Because `[^A-G]*` can consume exactly the
characters that the root class `[A-G]` rejects, a `re.search` of this pattern
is equivalent to trying the capture group (followed by `\b`) at each
occurrence of a root letter `A`-`G`, left to right, and returning the first
success — which is how `regexSearch` below is written.  Within the group the
candidate consumption lengths of each quantified piece are enumerated in
Python's backtracking order (present/longest first) and the first combination
satisfying the trailing word boundary wins.
-/

/-- The root-letter class `[A-G]`. -/
def isRootLetter (c : Char) : Bool := 'A' ≤ c && c ≤ 'G'

/-- The accidental class `[b#]`. -/
def isAccidental (c : Char) : Bool := c = 'b' || c = '#'

/-- Python's `\w` (word character) restricted to ASCII: `[a-zA-Z0-9_]`. -/
def isWordChar (c : Char) : Bool := c.isAlphanum || c = '_'

/-- `matchesAt pat l` holds when `pat` is an initial segment of `l`
(a literal-prefix test for the alternation branches). -/
def matchesAt : List Char → List Char → Bool
  | [], _ => true
  | _ :: _, [] => false
  | a :: as, b :: bs => a = b && matchesAt as bs

/-- The branches of `(?:maj|min|m|M|dim|aug|sus|add|[-_])`, in pattern order. -/
def qualityAlts : List (List Char) :=
  [['m', 'a', 'j'], ['m', 'i', 'n'], ['m'], ['M'],
   ['d', 'i', 'm'], ['a', 'u', 'g'], ['s', 'u', 's'], ['a', 'd', 'd'],
   ['-'], ['_']]

/-- Consumption candidates of `[b#]?` at the head of `l`: take the accidental
first, then the empty alternative. -/
def accCands (l : List Char) : List Nat :=
  match l with
  | c :: _ => if isAccidental c then [1, 0] else [0]
  | [] => [0]

/-- Consumption candidates of the optional quality group: matching branches in
pattern order, then the empty alternative. -/
def qualCands (l : List Char) : List Nat :=
  (qualityAlts.filterMap (fun alt => if matchesAt alt l then some alt.length else none)) ++ [0]

/-- Length of the maximal digit run at the head of `l`. -/
def digitRun : List Char → Nat
  | [] => 0
  | c :: cs => if c.isDigit then digitRun cs + 1 else 0

/-- Consumption candidates of `[0-9]*`: greedy, so from the maximal run down
to zero. -/
def digitCands (l : List Char) : List Nat :=
  (List.range (digitRun l + 1)).reverse

/-- Indices of `)` inside the newline-free initial segment of `l` (Python `.`
does not match a newline), in ascending order. -/
def collectCloseIdx : List Char → Nat → List Nat
  | [], _ => []
  | c :: cs, i =>
    if c = '\n' then []
    else (if c = ')' then [i] else []) ++ collectCloseIdx cs (i + 1)

/-- Consumption candidates of `(?:\(.*\))?` at the head of `l`: when `l`
starts with `(`, each total length `j + 2` for a closing `)` at index `j` of
the rest (greedy `.*`, so longest first), then the empty alternative. -/
def parenCands (l : List Char) : List Nat :=
  match l with
  | '(' :: rest => ((collectCloseIdx rest 0).reverse.map (fun j => j + 2)) ++ [0]
  | _ => [0]

/-- Consumption candidates of `(?:/[A-G][b#]?)?` at the head of `l`: the slash
branch (with its inner `[b#]?` greedy) first, then the empty alternative. -/
def slashCands (l : List Char) : List Nat :=
  match l with
  | '/' :: r :: rest =>
    if isRootLetter r then
      (match rest with
       | a :: _ => if isAccidental a then [3, 2] else [2]
       | [] => [2]) ++ [0]
    else [0]
  | _ => [0]

/-- The trailing `\b`: a word boundary between the last consumed character and
the rest of the input (positions outside the string count as non-word). -/
def boundaryOk (prev : Char) (next : List Char) : Bool :=
  isWordChar prev != (match next with
                      | [] => false
                      | c :: _ => isWordChar c)

/-- Try the capture group (root, optional accidental, optional quality,
digits, optional parenthesized qualifier, optional slash bass) followed by
`\b` at the head of `l`; returns the group's length on the first combination
that succeeds in backtracking order. -/
def matchGroupAt (l : List Char) : Option Nat :=
  match l with
  | [] => none
  | c :: rest =>
    if isRootLetter c then
      (accCands rest).findSome? fun a =>
        let r1 := rest.drop a
        (qualCands r1).findSome? fun q =>
          let r2 := r1.drop q
          (digitCands r2).findSome? fun d =>
            let r3 := r2.drop d
            (parenCands r3).findSome? fun p =>
              let r4 := r3.drop p
              (slashCands r4).findSome? fun s =>
                let r5 := r4.drop s
                let n := 1 + a + q + d + p + s
                if boundaryOk ((l.take n).getLastD ' ') r5 then some n else none
    else none

/-- `re.search` of the chord pattern: try the group at each root letter, left
to right (the leading `[^A-G]*` makes any earlier start position reach exactly
the next root letter), returning capture group 1 of the first success. -/
def regexSearch : List Char → Option (List Char)
  | [] => none
  | c :: rest =>
    if isRootLetter c then
      match matchGroupAt (c :: rest) with
      | some n => some ((c :: rest).take n)
      | none => regexSearch rest
    else regexSearch rest

/-- String-level wrapper of `regexSearch`: the chord-like substring extracted
by `match.group(1)` at line 111, if the pattern matches. -/
def regexExtract (s : String) : Option String :=
  (regexSearch s.toList).map String.mk

/-- Meta-message text kinds; the code at line 92 scans only `text`, `lyrics`
and `marker` messages. -/
inductive TextKind
  | text
  | lyrics
  | marker
  | trackName
  | otherMeta
deriving DecidableEq

/-- The membership test `msg.type in ['text', 'lyrics', 'marker']` at line 92. -/
def kindScanned : TextKind → Bool
  | TextKind.text => true
  | TextKind.lyrics => true
  | TextKind.marker => true
  | _ => false

/-- Python `str.strip()` (line 98) for ASCII text: drop whitespace from both
ends. -/
def pyStrip (s : String) : String :=
  String.mk (((s.toList.dropWhile Char.isWhitespace).reverse.dropWhile
    Char.isWhitespace).reverse)

/-- The text chord recognizer, `main.py` lines 92-119: for a scanned meta-text
message, strip surrounding whitespace, search the chord pattern, and validate
the captured substring with the external chord-symbol constructor `v`
(line 114, inside `try`/`except`); a failed validation is absorbed and yields
no chord. -/
def decodeTextEvent (v : String → Bool) (kind : TextKind) (content : String) :
    Option String :=
  if kindScanned kind then
    let t := pyStrip content
    if t = "" then none
    else
      match regexExtract t with
      | none => none
      | some m => if v m then some m else none
  else none

/-!
## The extraction pipeline (`main.py` lines 50-132)
-/

/-- The payload of one merged-stream message, discriminated as the code does:
`sequencer_specific` meta messages carry raw data bytes, meta text messages
carry a kind and a string, everything else is ignored. -/
inductive MsgPayload
  | sequencerSpecific (data : List Nat)
  | metaText (kind : TextKind) (content : String)
  | other
deriving DecidableEq

/-- One message of `mido.merge_tracks(mf.tracks)`: a delta time in ticks
(`msg.time`) and a payload. -/
structure Msg where
  time : ℤ
  payload : MsgPayload
deriving DecidableEq

/-- A music21 `harmony.ChordSymbol` as used here: a chord name and an offset
in quarter notes (`cs.offset`, line 126). -/
structure ChordSymbol where
  name : String
  offset : ℚ
deriving DecidableEq

/-- Event dispatch of the loop body: the SysEx branch (lines 68-89) takes
precedence, the meta-text branch (lines 92-119) runs otherwise; the SysEx
path does not consult the validator. -/
def decodeEvent (v : String → Bool) : MsgPayload → Option String
  | MsgPayload.sequencerSpecific data => decodeXFSysEx data
  | MsgPayload.metaText kind content => decodeTextEvent v kind content
  | MsgPayload.other => none

/-- Lines 122-130: when a chord name was found, construct the
`harmony.ChordSymbol` at offset `absolute_time_ticks / ticks_per_quarter`
and append it; a constructor failure (`v name = false`) prints a warning
and drops the chord. -/
def appendChord (v : String → Bool) (tpq : ℕ) (t : ℤ)
    (acc : List ChordSymbol) : Option String → List ChordSymbol
  | none => acc
  | some name =>
    if v name then acc ++ [⟨name, (t : ℚ) / (tpq : ℚ)⟩] else acc

/-- One iteration of the message loop (lines 62-130): advance the running
absolute tick counter by the delta time (line 64), decode, and conditionally
append. -/
def processMsg (v : String → Bool) (tpq : ℕ) (t : ℤ) (acc : List ChordSymbol)
    (m : Msg) : ℤ × List ChordSymbol :=
  (t + m.time, appendChord v tpq (t + m.time) acc (decodeEvent v m.payload))

/-- The message loop folded over the merged stream, threading the absolute
tick counter (initially 0, line 60) and the chord list (initially `[]`,
line 19). -/
def parseLoop (v : String → Bool) (tpq : ℕ) :
    List Msg → ℤ → List ChordSymbol → ℤ × List ChordSymbol
  | [], t, acc => (t, acc)
  | m :: ms, t, acc =>
    let s := processMsg v tpq t acc m
    parseLoop v tpq ms s.1 s.2

/-- `_parse_chords_from_midi` on an already-opened chord file: `tpq` is the
governing (melody file) resolution passed in as `ticks_per_quarter`,
`chordFileTpq` is the chord file's own `mf.ticks_per_beat`, used only for the
mismatch warning at lines 54-55.  Returns the warning flag and the chord
list. -/
def parseChordsFromMidi (v : String → Bool) (tpq : ℕ) (chordFileTpq : ℕ)
    (msgs : List Msg) : Bool × List ChordSymbol :=
  (chordFileTpq != tpq, (parseLoop v tpq msgs 0 []).2)

/-- The absolute tick positions assigned by the running accumulation
`absolute_time_ticks += msg.time` (lines 60-64): one position per message,
in emission order. -/
def accumulateTicks (t : ℤ) : List ℤ → List ℤ
  | [] => []
  | d :: ds => (t + d) :: accumulateTicks (t + d) ds

lemma accumulateTicks_get? :
    ∀ (ds : List ℤ) (t : ℤ) (i : ℕ), i < ds.length →
      (accumulateTicks t ds).get? i = some (t + (ds.take (i + 1)).sum) := by
  intro ds
  induction ds with
  | nil => intro t i h; cases h
  | cons d ds ih =>
    intro t i h
    cases i with
    | zero => simp [accumulateTicks]
    | succ i =>
      have h' : i < ds.length := by simpa using h
      simp only [accumulateTicks, List.get?_cons_succ, List.take_succ_cons,
        List.sum_cons]
      rw [ih (t + d) i h']
      ring_nf

lemma accumulateTicks_mem_le :
    ∀ (ds : List ℤ) (t x : ℤ), (∀ d ∈ ds, 0 ≤ d) →
      x ∈ accumulateTicks t ds → t ≤ x := by
  intro ds
  induction ds with
  | nil => intro t x _ hx; cases hx
  | cons d ds ih =>
    intro t x hd hx
    have hd0 : 0 ≤ d := hd d (List.mem_cons_self d ds)
    rcases List.mem_cons.mp hx with h | h
    · subst h; linarith
    · have := ih (t + d) x (fun e he => hd e (List.mem_cons_of_mem d he)) h
      linarith

lemma accumulateTicks_pairwise :
    ∀ (ds : List ℤ) (t : ℤ), (∀ d ∈ ds, 0 ≤ d) →
      List.Pairwise (· ≤ ·) (accumulateTicks t ds) := by
  intro ds
  induction ds with
  | nil => intro t _; simp [accumulateTicks]
  | cons d ds ih =>
    intro t hd
    have htl : ∀ e ∈ ds, (0 : ℤ) ≤ e := fun e he => hd e (List.mem_cons_of_mem d he)
    refine List.pairwise_cons.mpr ⟨?_, ih (t + d) htl⟩
    intro x hx
    exact accumulateTicks_mem_le ds (t + d) x htl hx

lemma parseLoop_fst (v : String → Bool) (tpq : ℕ) :
    ∀ (msgs : List Msg) (t : ℤ) (acc : List ChordSymbol),
      (parseLoop v tpq msgs t acc).1 = t + (msgs.map Msg.time).sum := by
  intro msgs
  induction msgs with
  | nil => intro t acc; simp [parseLoop]
  | cons m ms ih =>
    intro t acc
    simp only [parseLoop, processMsg, List.map_cons, List.sum_cons]
    rw [ih]
    ring_nf

/-- Claim C3: each message's absolute tick position is the prefix sum of the
delta-times in emission order, the positions are monotonically non-decreasing
when every delta-time is non-negative, the deltas `[0, 10, 0, 5]` produce
positions `[0, 10, 10, 15]`, and the extraction loop's running counter ends
at the sum of all deltas. -/
theorem tick_accumulation_prefix_sums :
    accumulateTicks 0 [0, 10, 0, 5] = [0, 10, 10, 15] ∧
    (∀ (ds : List ℤ) (t : ℤ) (i : ℕ), i < ds.length →
      (accumulateTicks t ds).get? i = some (t + (ds.take (i + 1)).sum)) ∧
    (∀ ds : List ℤ, (∀ d ∈ ds, 0 ≤ d) →
      List.Pairwise (· ≤ ·) (accumulateTicks 0 ds)) ∧
    (∀ (v : String → Bool) (tpq : ℕ) (msgs : List Msg) (t : ℤ)
      (acc : List ChordSymbol),
      (parseLoop v tpq msgs t acc).1 = t + (msgs.map Msg.time).sum) :=
  ⟨by decide, accumulateTicks_get?, fun ds h => accumulateTicks_pairwise ds 0 h,
   fun v tpq => parseLoop_fst v tpq⟩

/-- Witness for C3: the fourth position of the example stream is
`0 + (0 + 10 + 0 + 5) = 15`. -/
theorem tick_accumulation_prefix_sums_witness :
    (accumulateTicks 0 [0, 10, 0, 5]).get? 3 =
      some (0 + (([0, 10, 0, 5] : List ℤ).take 4).sum) :=
  tick_accumulation_prefix_sums.2.1 [0, 10, 0, 5] 0 3 (by decide)

/-- Claim C4: a recognized chord's offset is its absolute tick position
divided by the governing (melody-file) resolution: the chord list is
independent of the chord file's own resolution, whose only effect is the
mismatch warning flag; an accepted chord decoded at absolute tick
`t + m.time` is appended at offset `(t + m.time) / tpq`; and with governing
resolution 480 a chord at absolute tick 960 sits at offset exactly 2. -/
theorem offset_uses_governing_tpq :
    (∀ (v : String → Bool) (tpq a b : ℕ) (msgs : List Msg),
      (parseChordsFromMidi v tpq a msgs).2 = (parseChordsFromMidi v tpq b msgs).2) ∧
    (∀ (v : String → Bool) (tpq a : ℕ) (msgs : List Msg),
      (parseChordsFromMidi v tpq a msgs).1 = (a != tpq)) ∧
    (∀ (v : String → Bool) (tpq : ℕ) (t : ℤ) (acc : List ChordSymbol) (m : Msg)
      (name : String),
      decodeEvent v m.payload = some name → v name = true →
      processMsg v tpq t acc m =
        (t + m.time, acc ++ [⟨name, ((t + m.time : ℤ) : ℚ) / (tpq : ℚ)⟩])) ∧
    (parseChordsFromMidi (fun _ => true) 480 480
      [⟨960, MsgPayload.sequencerSpecific [0x43, 0x7B, 0x01, 0x32, 0x00]⟩]).2
      = [⟨"D", 2⟩] := by
  refine ⟨fun v tpq a b msgs => rfl, fun v tpq a msgs => rfl, ?_, ?_⟩
  · intro v tpq t acc m name hdec hv
    simp [processMsg, appendChord, hdec, hv]
  · have hdec : decodeXFSysEx [0x43, 0x7B, 0x01, 0x32, 0x00] = some "D" := by
      decide
    simp only [parseChordsFromMidi, parseLoop, processMsg, decodeEvent,
      appendChord, hdec, if_true]
    norm_num

/-- Witness for C4: the SysEx chord `D` decoded at delta 960 from tick 0 is
appended at offset `960 / 480`. -/
theorem offset_uses_governing_tpq_witness :
    processMsg (fun _ => true) 480 0 []
      ⟨960, MsgPayload.sequencerSpecific [0x43, 0x7B, 0x01, 0x32, 0x00]⟩ =
      (0 + 960, [] ++ [⟨"D", (((0 + 960 : ℤ)) : ℚ) / ((480 : ℕ) : ℚ)⟩]) :=
  offset_uses_governing_tpq.2.2.1 (fun _ => true) 480 0 []
    ⟨960, MsgPayload.sequencerSpecific [0x43, 0x7B, 0x01, 0x32, 0x00]⟩ "D"
    (by decide) rfl

/-- Claim C6: on the text event content `"Gm7 riff"` the chord pattern
captures exactly `"Gm7"`, and with any validator accepting `"Gm7"` the
pipeline produces the single chord symbol `Gm7` (here at tick 0, offset 0). -/
theorem text_gm7_extracted :
    regexExtract "Gm7 riff" = some "Gm7" ∧
    ∀ v : String → Bool, v "Gm7" = true →
      (parseChordsFromMidi v 480 480
        [⟨0, MsgPayload.metaText TextKind.text "Gm7 riff"⟩]).2 = [⟨"Gm7", 0⟩] := by
  constructor
  · decide
  · intro v hv
    have hstrip : pyStrip "Gm7 riff" = "Gm7 riff" := by decide
    have hre : regexExtract "Gm7 riff" = some "Gm7" := by decide
    have hne : ¬("Gm7 riff" = "") := by decide
    simp only [parseChordsFromMidi, parseLoop, processMsg, decodeEvent,
      decodeTextEvent, kindScanned, appendChord, hstrip, hre, if_neg hne,
      if_true, hv]
    norm_num

/-- Witness for C6 with the concrete validator accepting exactly `"Gm7"`. -/
theorem text_gm7_extracted_witness :
    (parseChordsFromMidi (fun s => s == "Gm7") 480 480
      [⟨0, MsgPayload.metaText TextKind.text "Gm7 riff"⟩]).2 = [⟨"Gm7", 0⟩] :=
  text_gm7_extracted.2 (fun s => s == "Gm7") (by decide)

/-- Claim C7: a scanned text event whose content matches the chord pattern
but whose captured substring the validator rejects yields no chord, and the
event leaves the chord list untouched; the rejection is absorbed (the decoder
is a total function), never propagated. -/
theorem text_validator_rejection_absorbed :
    ∀ (v : String → Bool) (kind : TextKind) (content m : String),
      kindScanned kind = true →
      regexExtract (pyStrip content) = some m →
      v m = false →
      decodeTextEvent v kind content = none ∧
      ∀ (tpq : ℕ) (t dt : ℤ) (acc : List ChordSymbol),
        processMsg v tpq t acc ⟨dt, MsgPayload.metaText kind content⟩ =
          (t + dt, acc) := by
  intro v kind content m hkind hre hv
  have hdec : decodeTextEvent v kind content = none := by
    rw [decodeTextEvent, if_pos hkind]
    by_cases he : pyStrip content = ""
    · rw [he] at hre
      have h0 : regexExtract "" = none := rfl
      rw [h0] at hre
      exact Option.noConfusion hre
    · simp only [if_neg he, hre, hv]
      simp
  refine ⟨hdec, ?_⟩
  intro tpq t dt acc
  simp [processMsg, decodeEvent, hdec, appendChord]

/-- Witness for C7: a validator rejecting everything absorbs the chord-shaped
`"Gm7"` captured from `"Gm7 riff"`. -/
theorem text_validator_rejection_absorbed_witness :
    decodeTextEvent (fun _ => false) TextKind.text "Gm7 riff" = none ∧
    processMsg (fun _ => false) 480 0 []
      ⟨0, MsgPayload.metaText TextKind.text "Gm7 riff"⟩ = (0 + 0, []) := by
  refine ⟨?_, ?_⟩
  · exact (text_validator_rejection_absorbed (fun _ => false) TextKind.text
      "Gm7 riff" "Gm7" rfl (by decide) rfl).1
  · exact (text_validator_rejection_absorbed (fun _ => false) TextKind.text
      "Gm7 riff" "Gm7" rfl (by decide) rfl).2 480 0 0 []

/-- Division by the (non-negative) cast resolution preserves the order of
absolute tick positions. -/
lemma div_tpq_mono (tpq : ℕ) {a b : ℤ} (h : a ≤ b) :
    (a : ℚ) / (tpq : ℚ) ≤ (b : ℚ) / (tpq : ℚ) := by
  rcases Nat.eq_zero_or_pos tpq with h0 | h0
  · subst h0
    simp
  · have hc : (0 : ℚ) < (tpq : ℚ) := by exact_mod_cast h0
    have hab : (a : ℚ) ≤ (b : ℚ) := by exact_mod_cast h
    exact (div_le_div_iff_of_pos_right hc).mpr hab

lemma appendChord_mem {v : String → Bool} {tpq : ℕ} {t : ℤ}
    {acc : List ChordSymbol} {opt : Option String} {c : ChordSymbol}
    (hc : c ∈ appendChord v tpq t acc opt) :
    c ∈ acc ∨ (∃ name, opt = some name ∧ v name = true ∧
      c = ⟨name, (t : ℚ) / (tpq : ℚ)⟩) := by
  cases opt with
  | none => exact Or.inl hc
  | some name =>
    by_cases hv : v name
    · simp only [appendChord, if_pos hv] at hc
      rcases List.mem_append.mp hc with h | h
      · exact Or.inl h
      · exact Or.inr ⟨name, rfl, hv, by simpa using h⟩
    · simp only [appendChord, if_neg hv] at hc
      exact Or.inl hc

/-- Loop invariant for C8: running the loop from a state whose accumulated
chords have pairwise non-decreasing offsets, all bounded by the current
tick's offset, keeps the offsets pairwise non-decreasing. -/
lemma parseLoop_offsets_pairwise (v : String → Bool) (tpq : ℕ) :
    ∀ (msgs : List Msg) (t : ℤ) (acc : List ChordSymbol),
      (∀ m ∈ msgs, 0 ≤ m.time) →
      List.Pairwise (· ≤ ·) (acc.map ChordSymbol.offset) →
      (∀ c ∈ acc, c.offset ≤ (t : ℚ) / (tpq : ℚ)) →
      List.Pairwise (· ≤ ·) ((parseLoop v tpq msgs t acc).2.map ChordSymbol.offset) := by
  intro msgs
  induction msgs with
  | nil =>
    intro t acc _ hp _
    simpa [parseLoop] using hp
  | cons m ms ih =>
    intro t acc hnn hp hb
    have hm0 : (0 : ℤ) ≤ m.time := hnn m (List.mem_cons_self m ms)
    have htt : t ≤ t + m.time := by linarith
    have hb' : ∀ c ∈ acc, c.offset ≤ ((t + m.time : ℤ) : ℚ) / (tpq : ℚ) :=
      fun c hc => le_trans (hb c hc) (div_tpq_mono tpq htt)
    simp only [parseLoop, processMsg]
    apply ih (t + m.time) _ (fun e he => hnn e (List.mem_cons_of_mem m he))
    · cases hopt : decodeEvent v m.payload with
      | none => simpa [appendChord] using hp
      | some name =>
        by_cases hv : v name
        · simp only [appendChord, if_pos hv, List.map_append, List.map_cons,
            List.map_nil]
          refine List.pairwise_append.mpr ⟨hp, List.pairwise_singleton _ _, ?_⟩
          intro x hx y hy
          simp only [List.mem_singleton] at hy
          subst hy
          rcases List.mem_map.mp hx with ⟨c, hc, rfl⟩
          exact hb' c hc
        · simpa [appendChord, hv] using hp
    · intro c hc
      rcases appendChord_mem hc with h | ⟨name, _, _, rfl⟩
      · exact hb' c h
      · exact le_refl _

/-- Claim C8: for a merged stream with only non-negative delta-times, the
chord list comes out in encounter order with offsets pairwise non-decreasing:
every appended chord's offset is at least that of every chord appended before
it. -/
theorem offsets_nondecreasing :
    ∀ (v : String → Bool) (tpq cfTpq : ℕ) (msgs : List Msg),
      (∀ m ∈ msgs, 0 ≤ m.time) →
      List.Pairwise (· ≤ ·)
        ((parseChordsFromMidi v tpq cfTpq msgs).2.map ChordSymbol.offset) := by
  intro v tpq cfTpq msgs hnn
  exact parseLoop_offsets_pairwise v tpq msgs 0 [] hnn (by simp) (by simp)

/-- Witness for C8: two SysEx chords (`D` at tick 0, `F` at tick 480) give
offsets in non-decreasing order. -/
theorem offsets_nondecreasing_witness :
    List.Pairwise (· ≤ ·)
      ((parseChordsFromMidi (fun _ => true) 480 480
        [⟨0, MsgPayload.sequencerSpecific [0x43, 0x7B, 0x01, 0x32, 0x00]⟩,
         ⟨480, MsgPayload.sequencerSpecific [0x43, 0x7B, 0x01, 0x45, 0x00]⟩]).2.map
        ChordSymbol.offset) :=
  offsets_nondecreasing (fun _ => true) 480 480
    [⟨0, MsgPayload.sequencerSpecific [0x43, 0x7B, 0x01, 0x32, 0x00]⟩,
     ⟨480, MsgPayload.sequencerSpecific [0x43, 0x7B, 0x01, 0x45, 0x00]⟩]
    (by decide)

/-- Loop invariant for C10: every chord the loop accumulates has a name the
validator accepts (the constructor at line 124 guards every append). -/
lemma parseLoop_names_accepted (v : String → Bool) (tpq : ℕ) :
    ∀ (msgs : List Msg) (t : ℤ) (acc : List ChordSymbol),
      (∀ c ∈ acc, v c.name = true) →
      ∀ c ∈ (parseLoop v tpq msgs t acc).2, v c.name = true := by
  intro msgs
  induction msgs with
  | nil =>
    intro t acc hacc
    simpa [parseLoop] using hacc
  | cons m ms ih =>
    intro t acc hacc
    simp only [parseLoop, processMsg]
    apply ih
    intro c hc
    rcases appendChord_mem hc with h | ⟨name, _, hv, rfl⟩
    · exact hacc c h
    · exact hv

/-- Claim C10: every chord symbol in the extraction pipeline's output has a
name the external chord-symbol constructor accepts — on both decoder paths a
name the constructor rejects is dropped (with a warning) rather than
appended. -/
theorem output_names_validator_accepted :
    ∀ (v : String → Bool) (tpq cfTpq : ℕ) (msgs : List Msg)
      (c : ChordSymbol), c ∈ (parseChordsFromMidi v tpq cfTpq msgs).2 →
      v c.name = true := by
  intro v tpq cfTpq msgs c hc
  exact parseLoop_names_accepted v tpq msgs 0 [] (by simp) c hc

/-- Witness for C10: the chord `D` decoded from the table is in the output
only because the validator accepts `"D"`. -/
theorem output_names_validator_accepted_witness :
    (fun s => s == "D") (ChordSymbol.mk "D" 0).name = true :=
  output_names_validator_accepted (fun s => s == "D") 480 480
    [⟨0, MsgPayload.sequencerSpecific [0x43, 0x7B, 0x01, 0x32, 0x00]⟩]
    (ChordSymbol.mk "D" 0) (by
      have hdec : decodeXFSysEx [0x43, 0x7B, 0x01, 0x32, 0x00] = some "D" := by
        decide
      norm_num [parseChordsFromMidi, parseLoop, processMsg, decodeEvent,
        appendChord, hdec])

/-!
## Lead-sheet generation (`main.py` lines 134-187) and exit codes (220-264)

`create_lead_sheet` is modelled on pre-decoded inputs: the melody file is
`Option MelodyData` (`none` when `mido.MidiFile`/`converter.parse` raise in
the `try` of lines 140-147), and the chord file is `Option (ℕ × List Msg)`
(`none` when `mido.MidiFile` raises inside `_parse_chords_from_midi`, lines
50-58, where the caught exception makes the function return `[]`).  Melody
note/rest elements are opaque tagged offsets, copied verbatim.
-/

/-- One element of `melody_part.notesAndRests`: an offset in quarter notes
plus an opaque tag for its musical content (treated as opaque by the code). -/
structure MelodyElement where
  offset : ℚ
  tag : ℕ
deriving DecidableEq

/-- One part of `instrument.partitionByInstrument(melody_score)`:
`instrumentChannel` is `p.getInstrument().midiChannel` when
`p.getInstrument()` is truthy and carries a channel, `none` otherwise
(line 151). -/
structure MelodyPart where
  instrumentChannel : Option ℕ
  hasTimeSig : Bool
  hasKeySig : Bool
  elements : List MelodyElement
deriving DecidableEq

/-- The successfully parsed melody file: its `ticks_per_beat` (line 142) and
its partitioned parts (line 150). -/
structure MelodyData where
  ticksPerBeat : ℕ
  parts : List MelodyPart
deriving DecidableEq

/-- Elements inserted into the output part (lines 173-181). -/
inductive SheetElem
  | timeSig
  | keySig
  | chord (name : String)
  | melody (tag : ℕ)
deriving DecidableEq

/-- The selection at line 151: the first part whose instrument is on MIDI
channel 1. -/
def isMelodyChannelPart (p : MelodyPart) : Bool := p.instrumentChannel == some 1

/-- The merge of lines 167-184: time/key signature at offset 0 when present,
then every chord at its offset, then every melody note/rest at its own
offset, in insertion order. -/
def buildLeadSheet (part : MelodyPart) (chords : List ChordSymbol) :
    List (ℚ × SheetElem) :=
  (if part.hasTimeSig then [((0 : ℚ), SheetElem.timeSig)] else []) ++
  (if part.hasKeySig then [((0 : ℚ), SheetElem.keySig)] else []) ++
  chords.map (fun c => (c.offset, SheetElem.chord c.name)) ++
  part.elements.map (fun e => (e.offset, SheetElem.melody e.tag))

/-- Outcome of one `create_lead_sheet` call: the two `sys.exit(1)` sites
(lines 147 and 154, both before any output is produced) or the written
sheet (lines 186-187). -/
inductive GenResult
  | fatalMelodyParse
  | fatalNoMelodyChannel
  | written (sheet : List (ℚ × SheetElem))
deriving DecidableEq

/-- Whether the call reached the `lead_sheet.write` at line 187. -/
def outputWritten : GenResult → Bool
  | GenResult.written _ => true
  | _ => false

/-- `create_lead_sheet` (lines 134-187).  A melody parse failure exits before
anything else; a missing channel-1 part exits before extraction; a chord-file
parse failure is caught inside `_parse_chords_from_midi` and degrades to an
empty chord list (lines 56-58), after which the merge still runs and the
output file is written. -/
def create_lead_sheet (v : String → Bool) (chordFile : Option (ℕ × List Msg))
    (melody : Option MelodyData) : GenResult :=
  match melody with
  | none => GenResult.fatalMelodyParse
  | some md =>
    match md.parts.find? isMelodyChannelPart with
    | none => GenResult.fatalNoMelodyChannel
    | some part =>
      let chords :=
        match chordFile with
        | none => []
        | some cf => (parseChordsFromMidi v md.ticksPerBeat cf.1 cf.2).2
      GenResult.written (buildLeadSheet part chords)

/-- The generation-mode exit code, `main` lines 253-264: the `SystemExit(1)`
raised at lines 147/154 is not an `Exception`, so it passes through the
`except` clause and the process exits 1; on the success path `sys.exit(0)`
runs at line 264; any other exception during generation (abstracted by
`unexpectedFailure`) is caught at line 261 and `sys.exit(1)` runs. -/
def generationExitCode (v : String → Bool) (chordFile : Option (ℕ × List Msg))
    (melody : Option MelodyData) (unexpectedFailure : Bool) : ℕ :=
  match create_lead_sheet v chordFile melody with
  | GenResult.fatalMelodyParse => 1
  | GenResult.fatalNoMelodyChannel => 1
  | GenResult.written _ => if unexpectedFailure then 1 else 0

/-- A concrete parseable melody file: resolution 480, one part on channel 1
with a time signature and one note at offset 0. -/
def melodyEx : MelodyData := ⟨480, [⟨some 1, true, false, [⟨0, 0⟩]⟩]⟩

/-- Counterexample to C5 as stated: the chord-source MIDI file cannot be
opened or parsed (`chordFile = none`), yet the conversion is not aborted —
the melody-only output file is still written. -/
theorem chord_file_failure_still_writes :
    outputWritten (create_lead_sheet (fun _ => true) none (some melodyEx)) =
      true := rfl

/-- Claim C5 (amended): a melody-file parse failure, or the absence of a
melody part on MIDI channel 1, is fatal — generation stops at that point and
no output is written; a chord-file open/parse failure, by contrast, is
non-fatal: extraction degrades to an empty chord list and the merged output
is still written. -/
theorem melody_failures_fatal_no_output :
    (∀ (v : String → Bool) (cf : Option (ℕ × List Msg)),
      create_lead_sheet v cf none = GenResult.fatalMelodyParse) ∧
    (∀ (v : String → Bool) (cf : Option (ℕ × List Msg)) (md : MelodyData),
      md.parts.find? isMelodyChannelPart = none →
      create_lead_sheet v cf (some md) = GenResult.fatalNoMelodyChannel) ∧
    outputWritten GenResult.fatalMelodyParse = false ∧
    outputWritten GenResult.fatalNoMelodyChannel = false ∧
    (∀ (v : String → Bool) (md : MelodyData) (part : MelodyPart),
      md.parts.find? isMelodyChannelPart = some part →
      create_lead_sheet v none (some md) =
        GenResult.written (buildLeadSheet part [])) := by
  refine ⟨fun v cf => rfl, ?_, rfl, rfl, ?_⟩
  · intro v cf md h
    simp [create_lead_sheet, h]
  · intro v md part h
    simp [create_lead_sheet, h]

/-- Witness for C5 (amended): a melody file with no part at all has no
channel-1 part, so generation is fatal with no output. -/
theorem melody_failures_fatal_no_output_witness :
    create_lead_sheet (fun _ => true) none (some ⟨480, []⟩) =
      GenResult.fatalNoMelodyChannel :=
  melody_failures_fatal_no_output.2.1 (fun _ => true) none ⟨480, []⟩ rfl

/-- Counterexample to C9 as stated: the exit code for a melody parse failure
and the exit code for an unexpected failure during generation are both 1 —
there is no pair of distinct failure codes. -/
theorem failure_exit_codes_not_distinct :
    generationExitCode (fun _ => true) (some (480, [])) none false = 1 ∧
    generationExitCode (fun _ => true) (some (480, [])) (some melodyEx) true =
      1 ∧
    generationExitCode (fun _ => true) (some (480, [])) none false =
      generationExitCode (fun _ => true) (some (480, [])) (some melodyEx)
        true := ⟨rfl, rfl, rfl⟩

/-- Claim C9 (amended): generation exits 0 on success and 1 on failure;
melody-parse failure, missing melody channel and any other unexpected
failure all share the single failure code 1, which is distinct from the
success code 0. -/
theorem exit_codes_success_zero_failures_one :
    (∀ (v : String → Bool) (cf : Option (ℕ × List Msg))
      (md : Option MelodyData) (u : Bool),
      create_lead_sheet v cf md = GenResult.fatalMelodyParse →
      generationExitCode v cf md u = 1) ∧
    (∀ (v : String → Bool) (cf : Option (ℕ × List Msg))
      (md : Option MelodyData) (u : Bool),
      create_lead_sheet v cf md = GenResult.fatalNoMelodyChannel →
      generationExitCode v cf md u = 1) ∧
    (∀ (v : String → Bool) (cf : Option (ℕ × List Msg))
      (md : Option MelodyData) (s : List (ℚ × SheetElem)),
      create_lead_sheet v cf md = GenResult.written s →
      generationExitCode v cf md true = 1 ∧
      generationExitCode v cf md false = 0) ∧
    (0 : ℕ) ≠ 1 := by
  refine ⟨?_, ?_, ?_, by decide⟩
  · intro v cf md u h
    simp [generationExitCode, h]
  · intro v cf md u h
    simp [generationExitCode, h]
  · intro v cf md s h
    simp [generationExitCode, h]

/-- Witness for C9 (amended): a melody parse failure exits 1. -/
theorem exit_codes_success_zero_failures_one_witness :
    generationExitCode (fun _ => true) none none false = 1 :=
  exit_codes_success_zero_failures_one.1 (fun _ => true) none none false rfl

end XFConv
